import Mathlib

/-!
# Verification of the TUIC proxy protocol implementation

A shallow embedding of the TUIC sources in Lean 4: the fragment splitter
(`common/udp.rs`), the incoming-task demultiplexer (`common/incoming.rs`),
the server UDP session map (`server/connection/udp_session.rs`), and the
configuration parsers (`client/config.rs`, `tuic-client/config.rs`,
`tuic-server/utils.rs`).  Machine integers are natural numbers with explicit
reduction modulo `2 ^ 64` where `usize` overflow matters; fallible code
returns `Option` or `Except`.
-/

namespace Tuic

/-- Modelled from the spec: the `Address` tagged union of the protocol module
(§3), whose source is not among the provided files.  Four forms:
none (tag `0xff`, zero body), domain name (1-byte length, bytes, 2-byte
port), IPv4 (4 bytes, 2-byte port), IPv6 (16 bytes, 2-byte port). -/
inductive Address
  | noAddr
  | domainName (name : List Char) (port : ℕ)
  | ipv4 (octets : List ℕ) (port : ℕ)
  | ipv6 (octets : List ℕ) (port : ℕ)
deriving DecidableEq

/-- Modelled from the spec: `Address::serialized_len` — one tag byte plus the
body length of each form (§3). -/
def Address.serializedLen : Address → ℕ
  | .noAddr => 1
  | .domainName name _ => 1 + 1 + name.length + 2
  | .ipv4 _ _ => 1 + 4 + 2
  | .ipv6 _ _ => 1 + 16 + 2

/-- Modelled from the spec: the `Command` tagged union of the protocol module
(§3), whose source is not among the provided files; the variants and field
types follow its uses in `common/incoming.rs` and `common/udp.rs` (legacy
layout, `u32` association ids, §3/§9). -/
inductive Command
  | authenticate (token : List ℕ)
  | connect (addr : Address)
  | packet (assocId pktId fragTotal fragId len : ℕ) (addr : Option Address)
  | dissociate (assocId : ℕ)
  | heartbeat
deriving DecidableEq

/-- Serialized length contributed by the optional address of a `Packet`
command: fragments past the first omit the address entirely. -/
def optAddrSerializedLen : Option Address → ℕ
  | Option.none => 0
  | Option.some a => a.serializedLen

/-- Modelled from the spec: `Command::serialized_len` — the 2-byte
`{version, type}` header plus the per-variant body of §3 (legacy layout:
4-byte `assoc_id`). -/
def Command.serializedLen : Command → ℕ
  | .authenticate _ => 2 + 32
  | .connect a => 2 + a.serializedLen
  | .packet _ _ _ _ _ a => 2 + 4 + 2 + 1 + 1 + 2 + optAddrSerializedLen a
  | .dissociate _ => 2 + 4
  | .heartbeat => 2

/-! ## Fragment splitter (`common/udp.rs`) -/

/-- The `usize` modulus. -/
def USIZE : ℕ := 2 ^ 64

/-- Release-profile (wrapping) `usize` subtraction: `a - b` modulo `2 ^ 64`. -/
def wrapSub (a b : ℕ) : ℕ := (a % USIZE + (USIZE - b % USIZE)) % USIZE

/-- Release-profile (wrapping) `usize` addition. -/
def wrapAdd (a b : ℕ) : ℕ := (a + b) % USIZE

/-- The state of `SplitPacket` (`common/udp.rs`): the payload, the
per-fragment capacity `max_pkt_size`, the current slice bounds `start`/`end`,
and the fragment count reported by `ExactSizeIterator::len`. -/
structure SplitPacket where
  pkt : List ℕ
  maxPktSize : ℕ
  start : ℕ
  endPos : ℕ
  len : ℕ
deriving DecidableEq

/-- `DEFAULT_HEADER.serialized_len()` in `SplitPacket::new`: a `Packet`
command with a `None` address. -/
def defaultHeaderLen : ℕ :=
  Command.serializedLen (.packet 0 0 0 0 0 Option.none)

/-- `SplitPacket::new` (`common/udp.rs`): computes the first-fragment
capacity `max_datagram_size - DEFAULT_HEADER.serialized_len() -
addr.serialized_len()`, the subsequent capacity `max_datagram_size -
DEFAULT_HEADER.serialized_len()`, and the reported length
`if first_pkt_size > pkt.len() { 1 + (pkt.len() - first_pkt_size) /
max_pkt_size + 1 } else { 1 }`, with `usize` subtraction modelled as
wrapping. -/
def SplitPacket.new (pkt : List ℕ) (addr : Address) (maxDatagramSize : ℕ) :
    SplitPacket :=
  let firstPktSize :=
    wrapSub (wrapSub maxDatagramSize defaultHeaderLen) addr.serializedLen
  let maxPktSize := wrapSub maxDatagramSize defaultHeaderLen
  let len :=
    if firstPktSize > pkt.length then
      1 + wrapSub pkt.length firstPktSize / maxPktSize + 1
    else
      1
  { pkt := pkt, maxPktSize := maxPktSize, start := 0, endPos := firstPktSize,
    len := len }

/-- `split_packet` (`common/udp.rs`). -/
def split_packet (pkt : List ℕ) (addr : Address) (maxDatagramLen : ℕ) :
    SplitPacket :=
  SplitPacket.new pkt addr maxDatagramLen

/-- One `Iterator::next` step of `SplitPacket` (`common/udp.rs`): while
`self.start <= self.pkt.len()`, emit the slice
`pkt[start .. min(end, pkt.len())]` and advance both bounds by
`max_pkt_size`. -/
def SplitPacket.next (s : SplitPacket) : Option (List ℕ) × SplitPacket :=
  if s.start ≤ s.pkt.length then
    (Option.some ((s.pkt.drop s.start).take (min s.endPos s.pkt.length - s.start)),
      { s with
          start := wrapAdd s.start s.maxPktSize
          endPos := wrapAdd s.endPos s.maxPktSize })
  else
    (Option.none, s)

/-- Drive the `SplitPacket` iterator with fuel, collecting every emitted
fragment; the boolean records whether `next` returned `None` (the iterator
finished) within the fuel, so a `true` result lists the complete emission. -/
def SplitPacket.emitted : ℕ → SplitPacket → List (List ℕ) × Bool
  | 0, _ => ([], false)
  | fuel + 1, s =>
    match s.next with
    | (Option.none, _) => ([], true)
    | (Option.some b, s2) =>
      let r := SplitPacket.emitted fuel s2
      (b :: r.1, r.2)

/-- Every `usize` subtraction evaluated by `SplitPacket::new` stays in range
(no underflow): the two capacity subtractions, and — since the
`pkt.len() - first_pkt_size` subtraction is evaluated exactly when
`first_pkt_size > pkt.len()` — that branch must not be taken. -/
def splitNewInRange (pktLen : ℕ) (addr : Address) (maxDatagramSize : ℕ) :
    Prop :=
  defaultHeaderLen ≤ maxDatagramSize ∧
  defaultHeaderLen + addr.serializedLen ≤ maxDatagramSize ∧
  ¬ (maxDatagramSize - defaultHeaderLen - addr.serializedLen > pktLen)

instance (pktLen : ℕ) (addr : Address) (maxDatagramSize : ℕ) :
    Decidable (splitNewInRange pktLen addr maxDatagramSize) := by
  unfold splitNewInRange
  infer_instance

/-! ## Incoming task demultiplexer (`common/incoming.rs`) -/

/-- A bidirectional QUIC stream, abstracted to an identifier: the
demultiplexer only threads it through. -/
structure BiStream where
  ident : ℕ
deriving DecidableEq

/-- A receive-only QUIC stream, abstracted to an identifier. -/
structure RecvStream where
  ident : ℕ
deriving DecidableEq

/-- The shared per-connection packet reassembly buffer, abstracted to an
identifier: the demultiplexer only threads it through. -/
structure PacketBuffer where
  ident : ℕ
deriving DecidableEq

/-- `RawIncomingTask` (`common/incoming.rs`), with the two `Packet` payload
carriers flattened to their fields. -/
inductive RawIncomingTask
  | authenticate (token : List ℕ)
  | connect (addr : Address) (stream : BiStream)
  | packetFromDatagram (assocId pktId fragTotal fragId len : ℕ)
      (addr : Option Address) (pktBuf : PacketBuffer) (pkt : List ℕ)
  | packetFromUniStream (assocId pktId fragTotal fragId len : ℕ)
      (addr : Option Address) (stream : RecvStream)
  | dissociate (assocId : ℕ)
  | heartbeat
deriving DecidableEq

/-- `IncomingError` (`common/incoming.rs`). -/
inductive IncomingError
  | ioError
  | protocolError
  | invalidEncoding
  | unexpectedIncomingBiStream (stream : BiStream)
  | unexpectedIncomingUniStream (stream : RecvStream)
  | unexpectedIncomingDatagram (datagram : List ℕ)
  | unexpectedCommandFromBiStream (stream : BiStream) (cmd : Command)
  | unexpectedCommandFromUniStream (stream : RecvStream) (cmd : Command)
  | unexpectedCommandFromDatagram (datagram : List ℕ) (cmd : Command)
deriving DecidableEq

/-- `RawPendingIncomingTask::accept_from_bi_stream` (`common/incoming.rs`)
after `Command::read_from` succeeded with `cmd`: only `Connect` is accepted,
every other command fails with `UnexpectedCommandFromBiStream` carrying the
stream back. -/
def acceptFromBiStream (stream : BiStream) (cmd : Command) :
    Except IncomingError RawIncomingTask :=
  match cmd with
  | .connect addr => .ok (.connect addr stream)
  | cmd => .error (.unexpectedCommandFromBiStream stream cmd)

/-- `RawPendingIncomingTask::accept_from_uni_stream` (`common/incoming.rs`)
after `Command::read_from` succeeded with `cmd`. -/
def acceptFromUniStream (stream : RecvStream) (cmd : Command) :
    Except IncomingError RawIncomingTask :=
  match cmd with
  | .authenticate token => .ok (.authenticate token)
  | .packet assocId pktId fragTotal fragId len addr =>
    .ok (.packetFromUniStream assocId pktId fragTotal fragId len addr stream)
  | .dissociate assocId => .ok (.dissociate assocId)
  | .heartbeat => .ok .heartbeat
  | cmd => .error (.unexpectedCommandFromUniStream stream cmd)

/-- `RawPendingIncomingTask::accept_from_datagram` (`common/incoming.rs`)
after `Command::read_from` succeeded with `cmd`: the fragment payload is the
datagram slice after the serialized command, only `Packet` is accepted, and
every other command fails with `UnexpectedCommandFromDatagram` carrying the
datagram back. -/
def acceptFromDatagram (datagram : List ℕ) (pktBuf : PacketBuffer)
    (cmd : Command) : Except IncomingError RawIncomingTask :=
  let pkt := datagram.drop cmd.serializedLen
  match cmd with
  | .packet assocId pktId fragTotal fragId len addr =>
    .ok (.packetFromDatagram assocId pktId fragTotal fragId len addr pktBuf pkt)
  | cmd => .error (.unexpectedCommandFromDatagram datagram cmd)

/-! ## Configuration parsing -/

/-- ASCII lower-casing of one character (`u8::to_ascii_lowercase`). -/
def asciiLowerChar (c : Char) : Char :=
  if 'A' ≤ c ∧ c ≤ 'Z' then Char.ofNat (c.toNat + 32) else c

/-- `str::eq_ignore_ascii_case`: equality after ASCII lower-casing. -/
def eqIgnoreAsciiCase (a b : List Char) : Prop :=
  a.map asciiLowerChar = b.map asciiLowerChar

instance (a b : List Char) : Decidable (eqIgnoreAsciiCase a b) := by
  unfold eqIgnoreAsciiCase
  infer_instance

/-- The string `cubic`. -/
def cubicChars : List Char := ['c', 'u', 'b', 'i', 'c']

/-- The string `new_reno`. -/
def newRenoChars : List Char := ['n', 'e', 'w', '_', 'r', 'e', 'n', 'o']

/-- The string `newreno`. -/
def newrenoAliasChars : List Char := ['n', 'e', 'w', 'r', 'e', 'n', 'o']

/-- The string `bbr`. -/
def bbrChars : List Char := ['b', 'b', 'r']

namespace Client

/-- `CongestionController` (`client/config.rs`). -/
inductive CongestionController
  | cubic
  | newReno
  | bbr
deriving DecidableEq

/-- The fragments of `ConfigError` (`client/config.rs`) reached by the
embedded code paths. -/
inductive ConfigError
  | invalidCongestionController
  | invalidUdpRelayMode
  | heartbeatInterval
deriving DecidableEq

/-- `FromStr for CongestionController` (`client/config.rs`): accepts
`cubic`, `new_reno` or its alias `newreno`, and `bbr`, each
case-insensitively; everything else is `InvalidCongestionController`. -/
def congestionControllerFromStr (s : List Char) :
    Except ConfigError CongestionController :=
  if eqIgnoreAsciiCase s cubicChars then .ok .cubic
  else if eqIgnoreAsciiCase s newRenoChars ∨
      eqIgnoreAsciiCase s newrenoAliasChars then .ok .newReno
  else if eqIgnoreAsciiCase s bbrChars then .ok .bbr
  else .error .invalidCongestionController

/-- `default::congestion_controller` (`client/config.rs`): the value used
when the option is absent. -/
def congestionControllerDefault : CongestionController := .cubic

/-- The heartbeat-interval validation step of `Config::parse`
(`client/config.rs`): `if raw.relay.max_idle_time as u64 <=
raw.relay.heartbeat_interval { return Err(ConfigError::HeartbeatInterval) }`
(the `u32 → u64` cast is value-preserving). -/
def heartbeatIntervalCheck (maxIdleTime heartbeatInterval : ℕ) :
    Except ConfigError Unit :=
  if maxIdleTime ≤ heartbeatInterval then .error .heartbeatInterval
  else .ok ()

end Client

namespace Server

/-- `CongestionController` (`tuic-server/src/utils.rs`). -/
inductive CongestionController
  | bbr
  | cubic
  | newReno
deriving DecidableEq

/-- The `#[educe(Default)]` attribute sits on `Bbr`
(`tuic-server/src/utils.rs`): the `Default` value of the server's
`CongestionController` is `Bbr`. -/
def congestionControllerDefault : CongestionController := .bbr

/-- `FromStr for CongestionController` (`tuic-server/src/utils.rs`); the
error is the static string `invalid congestion control`, modelled as
`Unit`. -/
def congestionControllerFromStr (s : List Char) :
    Except Unit CongestionController :=
  if eqIgnoreAsciiCase s cubicChars then .ok .cubic
  else if eqIgnoreAsciiCase s newRenoChars ∨
      eqIgnoreAsciiCase s newrenoAliasChars then .ok .newReno
  else if eqIgnoreAsciiCase s bbrChars then .ok .bbr
  else .error ()

end Server

namespace TuicClient

/-- Rust's `str::split(':')` (as used by `deserialize_server` in
`tuic-client/src/config.rs`): the possibly-empty runs between separators; an
empty string yields one empty item. -/
def splitColon : List Char → List (List Char)
  | [] => [[]]
  | c :: rest =>
    if c = ':' then [] :: splitColon rest
    else
      match splitColon rest with
      | [] => [[c]]
      | h :: t => (c :: h) :: t

/-- Digit value of an ASCII character, `none` on non-digits. -/
def digitVal (c : Char) : Option ℕ :=
  if '0' ≤ c ∧ c ≤ '9' then Option.some (c.toNat - 48) else Option.none

/-- Modelled from the Rust standard library: `u16::from_str` — an optional
leading `+`, then one or more ASCII digits, failing on any other character
or whenever an intermediate value exceeds `u16::MAX`. -/
def parseU16 (s : List Char) : Option ℕ :=
  let digits :=
    match s with
    | '+' :: rest => rest
    | other => other
  if digits = [] then Option.none
  else
    digits.foldl
      (fun acc c => do
        let a ← acc
        let d ← digitVal c
        let v := a * 10 + d
        if v ≤ 65535 then Option.some v else Option.none)
      (Option.some 0)

/-- `deserialize_server` (`tuic-client/src/config.rs`): split on `':'`,
require the first three items of the split to match
`(Some(domain), Some(port), None)`, and parse the port as a `u16`. -/
def deserializeServer (s : List Char) : Option (List Char × ℕ) :=
  let parts := splitColon s
  match parts[0]?, parts[1]?, parts[2]? with
  | Option.some domain, Option.some port, Option.none =>
    (parseU16 port).map (fun p => (domain, p))
  | _, _, _ => Option.none

/-- Whether a character differs from `':'`. -/
def notColon (c : Char) : Bool := c ≠ ':'

/-- The acceptance predicate the claim states for `deserialize_server`,
written from its words: the string must contain exactly one `':'`, the host
is the part before it, and the part after it must parse as a `u16` port. -/
def deserializeServerSpec (s : List Char) : Option (List Char × ℕ) :=
  if s.count ':' = 1 then
    (parseU16 ((s.dropWhile notColon).tail)).map
      (fun p => (s.takeWhile notColon, p))
  else Option.none

/-- Modelled from the spec: `UdpRelayMode` of the `tuic-client` crate
(its `utils.rs` is not among the provided files), `native` or `quic`. -/
inductive UdpRelayMode
  | native
  | quic
deriving DecidableEq

/-- Modelled from the spec: `CongestionControl` of the `tuic-client` crate
(its `utils.rs` is not among the provided files). -/
inductive CongestionControl
  | cubic
  | newReno
  | bbr
deriving DecidableEq

/-- The `relay` table of `Config` (`tuic-client/src/config.rs`) after
deserialization; durations are carried in milliseconds. -/
structure Relay where
  server : List Char × ℕ
  token : List Char
  ip : Option (List ℕ)
  certificates : List (List Char)
  udpRelayMode : UdpRelayMode
  congestionControl : CongestionControl
  alpn : List (List Char)
  zeroRttHandshake : Bool
  timeout : ℕ
  heartbeat : ℕ
deriving DecidableEq

/-- A raw `relay` JSON table as serde receives it: required fields present,
optional fields optionally present.  Fields whose deserializers live outside
the provided sources are carried already typed. -/
structure RawRelay where
  server : List Char
  token : List Char
  ip : Option (List ℕ)
  certificates : Option (List (List Char))
  udpRelayMode : Option UdpRelayMode
  congestionControl : Option CongestionControl
  alpn : Option (List (List Char))
  zeroRttHandshake : Option Bool
  timeout : Option ℕ
  heartbeat : Option ℕ
deriving DecidableEq

/-- Deserialization of the `relay` table (`tuic-client/src/config.rs`):
`server` goes through `deserialize_server`, each absent optional field takes
its `default::relay` value (`timeout` 8 s, `heartbeat` 3 s, `native` mode,
`cubic` congestion control, empty lists, `false`), and no cross-field
validation is performed — in particular `Config::parse` never compares
`heartbeat` against `timeout`. -/
def Relay.deserialize (raw : RawRelay) : Option Relay :=
  (deserializeServer raw.server).map fun sv =>
    { server := sv
      token := raw.token
      ip := raw.ip
      certificates := raw.certificates.getD []
      udpRelayMode := raw.udpRelayMode.getD .native
      congestionControl := raw.congestionControl.getD .cubic
      alpn := raw.alpn.getD []
      zeroRttHandshake := raw.zeroRttHandshake.getD false
      timeout := raw.timeout.getD 8000
      heartbeat := raw.heartbeat.getD 3000 }

/-- A concrete raw `relay` table with `heartbeat` 10 s and `timeout` 8 s:
the heartbeat interval is not strictly below the idle timeout. -/
def rawRelayLongHeartbeat : RawRelay :=
  { server := ['h', ':', '8', '0']
    token := ['t']
    ip := Option.none
    certificates := Option.none
    udpRelayMode := Option.none
    congestionControl := Option.none
    alpn := Option.none
    zeroRttHandshake := Option.none
    timeout := Option.some 8000
    heartbeat := Option.some 10000 }

end TuicClient

/-! ## Server UDP session map (`server/connection/udp_session.rs`) -/

namespace UdpServer

/-- The address type of the `tuic_protocol` crate as
`server/connection/udp_session.rs` uses it: a hostname with port or a
resolved socket address. -/
inductive RelayAddress
  | hostnameAddress (hostname : List Char) (port : ℕ)
  | socketAddress (addr : List ℕ) (port : ℕ)
deriving DecidableEq

/-- State of a bounded tokio mpsc channel holding `(Vec<u8>, Address)`
packets: open with its queued items, or closed (receiving half dropped).
`Sender::send` on an open channel enqueues, awaiting capacity; it fails
exactly when the channel is closed. -/
inductive ChannelState
  | opened (queue : List (List ℕ × RelayAddress))
  | closed
deriving DecidableEq

/-- A `UdpSession` as the map stores it: the sending half of its
capacity-one packet channel. -/
structure UdpSession where
  chan : ChannelState
deriving DecidableEq

/-- The `assoc_id → UdpSession` map guarded by the `UdpSessionMap` mutex. -/
def SessionMap : Type := ℕ → Option UdpSession

/-- `UdpSessionMap::dissociate` (`server/connection/udp_session.rs`):
`self.map.lock().remove(&assoc_id)`. -/
def dissociate (m : SessionMap) (assocId : ℕ) : SessionMap :=
  fun k => if k = assocId then Option.none else m k

/-- What one `UdpSessionMap::send` call did with the payload. -/
inductive SendOutcome
  | delivered
  | channelClosed
  | creationFailed
deriving DecidableEq

/-- Whether the failure of a `send` call is reported: a session-creation
error is printed with `eprintln`, a failed channel send is discarded by
`let _ =`. -/
def SendOutcome.reported : SendOutcome → Bool
  | .creationFailed => true
  | _ => false

/-- `UdpSessionMap::send` (`server/connection/udp_session.rs`): on an
occupied entry the packet is sent into the session's channel (`let _ =`
discards the failure, which occurs exactly when the channel is closed); on a
vacant entry `UdpSession::new` — whose success is the `creationOk` input,
since binding the socket is an OS effect — yields a session with a fresh
open channel that is inserted and then sent the packet, while a creation
failure is printed via `eprintln!` and leaves the map untouched. -/
def send (m : SessionMap) (assocId : ℕ) (pkt : List ℕ) (addr : RelayAddress)
    (creationOk : Bool) : SessionMap × SendOutcome :=
  match m assocId with
  | Option.some s =>
    match s.chan with
    | .opened q =>
      (fun k => if k = assocId then
          Option.some { chan := .opened (q ++ [(pkt, addr)]) }
        else m k,
        .delivered)
    | .closed => (m, .channelClosed)
  | Option.none =>
    if creationOk then
      (fun k => if k = assocId then
          Option.some { chan := .opened [(pkt, addr)] }
        else m k,
        .delivered)
    else (m, .creationFailed)

/-- `recv_from` on a UDP socket, modelled from the OS contract: it copies at
most `buf.length` bytes of the incoming datagram into the buffer and returns
the number of bytes copied. -/
def recvFromBuf (datagram buf : List ℕ) : List ℕ × ℕ :=
  (datagram.take buf.length ++ buf.drop (min datagram.length buf.length),
    min datagram.length buf.length)

/-- One loop iteration of `UdpSession::listen_receive`
(`server/connection/udp_session.rs`): allocate `vec![0; 1536]`, receive into
it, truncate the buffer to the received length, and forward
`(assoc_id, buf, Address::SocketAddress(addr))` to the connection's receive
dispatcher. -/
def listenReceiveStep (assocId : ℕ) (datagram : List ℕ)
    (srcAddr : RelayAddress) : ℕ × List ℕ × RelayAddress :=
  let buf := List.replicate 1536 0
  let r := recvFromBuf datagram buf
  (assocId, (r.1).take r.2, srcAddr)

end UdpServer

end Tuic

namespace Tuic

/-- C1: the concatenation of the fragments emitted by `split_packet` should
reproduce the payload byte-for-byte.  It does not: with an IPv4 address
(`A = 7`), `max_datagram_size = 20 = H + A + 1` and the two-byte payload
`[0, 1]`, the iterator finishes after emitting the single fragment `[0]` —
the byte `1` is never emitted, because `next` advances `start` by
`max_pkt_size` from a first slice that ended at `first_pkt_size`. -/
theorem split_packet_drops_payload_bytes :
    (split_packet [0, 1] (.ipv4 [1, 2, 3, 4] 53) 20).emitted 5 =
      ([[0]], true) ∧
    ((split_packet [0, 1] (.ipv4 [1, 2, 3, 4] 53) 20).emitted 5).1.flatten ≠
      [0, 1] ∧
    defaultHeaderLen + (Address.ipv4 [1, 2, 3, 4] 53).serializedLen + 1 ≤ 20 := by
  decide

/-- C2: `ExactSizeIterator::len` should equal the number of fragments `next`
emits.  It does not: with an IPv4 address, `max_datagram_size = 20` and an
8-byte payload (`pkt.len() = max_pkt_size`), the reported length is `1` while
`next` emits two fragments before returning `None`. -/
theorem split_packet_len_mismatch :
    (split_packet [0, 1, 2, 3, 4, 5, 6, 7] (.ipv4 [1, 2, 3, 4] 53) 20).len
      = 1 ∧
    (split_packet [0, 1, 2, 3, 4, 5, 6, 7] (.ipv4 [1, 2, 3, 4] 53) 20).emitted
      5 = ([[0], []], true) ∧
    ([[0], []] : List (List ℕ)).length ≠ 1 ∧
    defaultHeaderLen + (Address.ipv4 [1, 2, 3, 4] 53).serializedLen + 1 ≤ 20 := by
  decide

/-- C3: a payload fitting in the first fragment should yield `len() = 1` with
in-range arithmetic.  It does not: with an IPv4 address,
`max_datagram_size = 20` and the empty payload (`pkt.len() = 0 <
first_pkt_size = 1`), `SplitPacket::new` takes the branch that computes
`pkt.len() - first_pkt_size`, which underflows `usize`; under release
(wrapping) semantics the reported length becomes `2305843009213693953`
although only one fragment is emitted. -/
theorem split_packet_new_underflows :
    ¬ splitNewInRange 0 (.ipv4 [1, 2, 3, 4] 53) 20 ∧
    (split_packet [] (.ipv4 [1, 2, 3, 4] 53) 20).len = 2305843009213693953 ∧
    (split_packet [] (.ipv4 [1, 2, 3, 4] 53) 20).emitted 5 = ([[]], true) ∧
    defaultHeaderLen + (Address.ipv4 [1, 2, 3, 4] 53).serializedLen + 1 ≤ 20 := by
  decide

/-- C4: accepting a bi-stream yields a `Connect` task exactly when the
command read is `Connect` and otherwise fails with
`UnexpectedCommandFromBiStream` carrying the stream back; accepting a
datagram yields a `Packet` task (with the slice after the header as payload)
exactly when the command is `Packet` and otherwise fails with
`UnexpectedCommandFromDatagram`; accepting a uni-stream yields a task exactly
when the command is `Authenticate`, `Packet`, `Dissociate` or `Heartbeat`. -/
theorem accept_classifies_commands (stream : BiStream) (ustream : RecvStream)
    (datagram : List ℕ) (pktBuf : PacketBuffer) (cmd : Command) :
    ((acceptFromBiStream stream cmd).isOk ↔
      ∃ a, cmd = Command.connect a) ∧
    (∀ a, acceptFromBiStream stream cmd =
        Except.ok (RawIncomingTask.connect a stream) ↔
      cmd = Command.connect a) ∧
    ((acceptFromBiStream stream cmd).isOk = false ↔
      acceptFromBiStream stream cmd =
        Except.error (IncomingError.unexpectedCommandFromBiStream stream cmd)) ∧
    ((acceptFromDatagram datagram pktBuf cmd).isOk ↔
      ∃ i p t f l a, cmd = Command.packet i p t f l a) ∧
    (∀ i p t f l a, acceptFromDatagram datagram pktBuf cmd =
        Except.ok (RawIncomingTask.packetFromDatagram i p t f l a pktBuf
          (datagram.drop (Command.packet i p t f l a).serializedLen)) ↔
      cmd = Command.packet i p t f l a) ∧
    ((acceptFromDatagram datagram pktBuf cmd).isOk = false ↔
      acceptFromDatagram datagram pktBuf cmd =
        Except.error
          (IncomingError.unexpectedCommandFromDatagram datagram cmd)) ∧
    ((acceptFromUniStream ustream cmd).isOk ↔
      ((∃ t, cmd = Command.authenticate t) ∨
        (∃ i p t f l a, cmd = Command.packet i p t f l a) ∨
        (∃ i, cmd = Command.dissociate i) ∨ cmd = Command.heartbeat)) := by
  cases cmd <;>
    simp [acceptFromBiStream, acceptFromUniStream, acceptFromDatagram,
      Except.isOk, Except.toBool]
  intro i p t f l a h1 h2 h3 h4 h5 h6
  subst h1; subst h2; subst h3; subst h4; subst h5; subst h6
  rfl

/-- C5 counterexample: the `tuic-client` crate's config parsing performs no
heartbeat check — the raw `relay` table with `heartbeat` 10 s and `timeout`
8 s (heartbeat interval not strictly below the idle time) deserializes
successfully, with no heartbeat-interval error. -/
theorem tuicClient_parse_skips_heartbeat_check :
    (TuicClient.Relay.deserialize TuicClient.rawRelayLongHeartbeat).isSome =
      true ∧
    (TuicClient.Relay.deserialize TuicClient.rawRelayLongHeartbeat).map
        (fun r => (r.timeout, r.heartbeat)) = Option.some (8000, 10000) ∧
    ¬ (10000 < 8000) := by
  decide

/-- C5 amended: the legacy `client` crate's `Config::parse` fails with
`ConfigError::HeartbeatInterval` exactly when the heartbeat interval is not
strictly less than the max idle time, and passes the check exactly when it
is; the `tuic-client` crate's config parsing performs no such check — its
success is independent of `heartbeat` and `timeout`, depending only on the
`server` field. -/
theorem heartbeat_interval_check_amended (maxIdleTime heartbeatInterval : ℕ)
    (raw : TuicClient.RawRelay) :
    (Client.heartbeatIntervalCheck maxIdleTime heartbeatInterval =
        Except.error Client.ConfigError.heartbeatInterval ↔
      ¬ heartbeatInterval < maxIdleTime) ∧
    (Client.heartbeatIntervalCheck maxIdleTime heartbeatInterval =
        Except.ok () ↔ heartbeatInterval < maxIdleTime) ∧
    ((TuicClient.Relay.deserialize raw).isSome ↔
      (TuicClient.deserializeServer raw.server).isSome) := by
  refine ⟨?_, ?_, ?_⟩
  · simp only [Client.heartbeatIntervalCheck]
    split_ifs with h
    · simp
      omega
    · simp
      omega
  · simp only [Client.heartbeatIntervalCheck]
    split_ifs with h
    · simp
      omega
    · simp
      omega
  · simp only [TuicClient.Relay.deserialize]
    cases h : TuicClient.deserializeServer raw.server <;> simp [h]

/-- C6 counterexample: in `tuic-server`, the `Default` value of
`CongestionController` — the value a configuration without the option
receives — is `Bbr`, not `Cubic`. -/
theorem server_congestion_default_is_bbr :
    Server.congestionControllerDefault = Server.CongestionController.bbr ∧
    Server.congestionControllerDefault ≠ Server.CongestionController.cubic := by
  decide

/-- C6 amended: both congestion-control parsers accept exactly `cubic`,
`new_reno` (with alias `newreno`) and `bbr`, each case-insensitively, and
reject every other string with an error; when the option is absent the
configured value defaults to `Cubic` in the `client` crate but to `Bbr` in
`tuic-server`. -/
theorem congestion_control_parsing_amended (s : List Char) :
    (Client.congestionControllerFromStr s =
        Except.ok Client.CongestionController.cubic ↔
      s.map asciiLowerChar = cubicChars) ∧
    (Client.congestionControllerFromStr s =
        Except.ok Client.CongestionController.newReno ↔
      (s.map asciiLowerChar = newRenoChars ∨
        s.map asciiLowerChar = newrenoAliasChars)) ∧
    (Client.congestionControllerFromStr s =
        Except.ok Client.CongestionController.bbr ↔
      s.map asciiLowerChar = bbrChars) ∧
    (Client.congestionControllerFromStr s =
        Except.error Client.ConfigError.invalidCongestionController ↔
      ¬ s.map asciiLowerChar ∈
        [cubicChars, newRenoChars, newrenoAliasChars, bbrChars]) ∧
    (Server.congestionControllerFromStr s =
        Except.ok Server.CongestionController.cubic ↔
      s.map asciiLowerChar = cubicChars) ∧
    (Server.congestionControllerFromStr s =
        Except.ok Server.CongestionController.newReno ↔
      (s.map asciiLowerChar = newRenoChars ∨
        s.map asciiLowerChar = newrenoAliasChars)) ∧
    (Server.congestionControllerFromStr s =
        Except.ok Server.CongestionController.bbr ↔
      s.map asciiLowerChar = bbrChars) ∧
    (Server.congestionControllerFromStr s = Except.error () ↔
      ¬ s.map asciiLowerChar ∈
        [cubicChars, newRenoChars, newrenoAliasChars, bbrChars]) ∧
    Client.congestionControllerDefault = Client.CongestionController.cubic ∧
    Server.congestionControllerDefault = Server.CongestionController.bbr := by
  have e1 : eqIgnoreAsciiCase s cubicChars ↔
      s.map asciiLowerChar = cubicChars := by
    unfold eqIgnoreAsciiCase
    rw [show cubicChars.map asciiLowerChar = cubicChars by decide]
  have e2 : eqIgnoreAsciiCase s newRenoChars ↔
      s.map asciiLowerChar = newRenoChars := by
    unfold eqIgnoreAsciiCase
    rw [show newRenoChars.map asciiLowerChar = newRenoChars by decide]
  have e3 : eqIgnoreAsciiCase s newrenoAliasChars ↔
      s.map asciiLowerChar = newrenoAliasChars := by
    unfold eqIgnoreAsciiCase
    rw [show newrenoAliasChars.map asciiLowerChar = newrenoAliasChars by decide]
  have e4 : eqIgnoreAsciiCase s bbrChars ↔
      s.map asciiLowerChar = bbrChars := by
    unfold eqIgnoreAsciiCase
    rw [show bbrChars.map asciiLowerChar = bbrChars by decide]
  simp only [Client.congestionControllerFromStr,
    Server.congestionControllerFromStr, e1, e2, e3, e4, List.mem_cons,
    List.not_mem_nil, or_false]
  generalize s.map asciiLowerChar = L
  have n1 : cubicChars ≠ newRenoChars := by decide
  have n2 : cubicChars ≠ newrenoAliasChars := by decide
  have n3 : cubicChars ≠ bbrChars := by decide
  have n4 : newRenoChars ≠ newrenoAliasChars := by decide
  have n5 : newRenoChars ≠ bbrChars := by decide
  have n6 : newrenoAliasChars ≠ bbrChars := by decide
  by_cases h1 : L = cubicChars
  · subst h1
    simp [n1, n2, n3, Client.congestionControllerDefault,
      Server.congestionControllerDefault]
  by_cases h2 : L = newRenoChars
  · subst h2
    simp [Ne.symm n1, n4, n5, Client.congestionControllerDefault,
      Server.congestionControllerDefault]
  by_cases h3 : L = newrenoAliasChars
  · subst h3
    simp [Ne.symm n2, Ne.symm n4, n6, Client.congestionControllerDefault,
      Server.congestionControllerDefault]
  by_cases h4 : L = bbrChars
  · subst h4
    simp [Ne.symm n3, Ne.symm n5, Ne.symm n6,
      Client.congestionControllerDefault, Server.congestionControllerDefault]
  simp [h1, h2, h3, h4, Client.congestionControllerDefault,
    Server.congestionControllerDefault]

/-- C7: after `dissociate(id)` the session map holds no session for `id`,
every entry for any other association id is unchanged, and a later `send`
for `id` takes the vacant branch, creating and inserting a fresh session
that receives the packet. -/
theorem dissociate_removes_only_target (m : UdpServer.SessionMap)
    (assocId k : ℕ) (pkt : List ℕ) (addr : UdpServer.RelayAddress)
    (hk : k ≠ assocId) :
    UdpServer.dissociate m assocId assocId = Option.none ∧
    UdpServer.dissociate m assocId k = m k ∧
    (UdpServer.send (UdpServer.dissociate m assocId) assocId pkt addr
        true).1 assocId =
      Option.some { chan := UdpServer.ChannelState.opened [(pkt, addr)] } ∧
    (UdpServer.send (UdpServer.dissociate m assocId) assocId pkt addr
        true).2 = UdpServer.SendOutcome.delivered := by
  refine ⟨?_, ?_, ?_, ?_⟩ <;>
    simp [UdpServer.dissociate, UdpServer.send, hk]

/-- Witness for C7 at the empty map, `assoc_id = 7`, other id `3`. -/
theorem dissociate_removes_only_target_witness :
    (3 : ℕ) ≠ 7 ∧
    (UdpServer.dissociate (fun _ => Option.none) 7 7 = Option.none ∧
      UdpServer.dissociate (fun _ => Option.none) 7 3 =
        (fun _ => (Option.none : Option UdpServer.UdpSession)) 3 ∧
      (UdpServer.send (UdpServer.dissociate (fun _ => Option.none) 7) 7 [1]
          (UdpServer.RelayAddress.socketAddress [1, 2, 3, 4] 53) true).1 7 =
        Option.some
          { chan := UdpServer.ChannelState.opened
              [([1], UdpServer.RelayAddress.socketAddress [1, 2, 3, 4] 53)] } ∧
      (UdpServer.send (UdpServer.dissociate (fun _ => Option.none) 7) 7 [1]
          (UdpServer.RelayAddress.socketAddress [1, 2, 3, 4] 53) true).2 =
        UdpServer.SendOutcome.delivered) :=
  ⟨by decide,
    dissociate_removes_only_target (fun _ => Option.none) 7 3 [1]
      (UdpServer.RelayAddress.socketAddress [1, 2, 3, 4] 53) (by decide)⟩

/-- C8: `UdpSessionMap::send` never drops the payload while leaving the
association's channel open without reporting: every call either delivers the
payload into the association's (possibly fresh) channel, or fails the
channel send precisely because that channel is already torn down (closed),
or fails session creation and reports it. -/
theorem send_never_silently_drops (m : UdpServer.SessionMap) (assocId : ℕ)
    (pkt : List ℕ) (addr : UdpServer.RelayAddress) (creationOk : Bool) :
    ((UdpServer.send m assocId pkt addr creationOk).2 =
        UdpServer.SendOutcome.delivered ∧
      ∃ q, (UdpServer.send m assocId pkt addr creationOk).1 assocId =
          Option.some { chan := UdpServer.ChannelState.opened q } ∧
        (pkt, addr) ∈ q) ∨
    ((UdpServer.send m assocId pkt addr creationOk).2 =
        UdpServer.SendOutcome.channelClosed ∧
      m assocId = Option.some { chan := UdpServer.ChannelState.closed } ∧
      (UdpServer.send m assocId pkt addr creationOk).1 = m) ∨
    ((UdpServer.send m assocId pkt addr creationOk).2 =
        UdpServer.SendOutcome.creationFailed ∧
      UdpServer.SendOutcome.reported UdpServer.SendOutcome.creationFailed =
        true ∧
      (UdpServer.send m assocId pkt addr creationOk).1 = m) := by
  cases hm : m assocId with
  | none =>
    cases creationOk with
    | false =>
      right; right
      simp [UdpServer.send, hm, UdpServer.SendOutcome.reported]
    | true =>
      left
      refine ⟨?_, ⟨[(pkt, addr)], ?_, ?_⟩⟩ <;> simp [UdpServer.send, hm]
  | some s =>
    cases hc : s.chan with
    | opened q =>
      left
      refine ⟨?_, ⟨q ++ [(pkt, addr)], ?_, ?_⟩⟩ <;>
        simp [UdpServer.send, hm, hc]
    | closed =>
      have hs : s = { chan := UdpServer.ChannelState.closed } := by
        cases s
        simpa using hc
      rw [hs] at hm
      right; left
      refine ⟨?_, by rw [hs], ?_⟩ <;> simp [UdpServer.send, hm]

/-- C9: every `(assoc_id, payload, source_addr)` tuple that
`UdpSession::listen_receive` forwards carries exactly the first 1536 bytes
of the incoming datagram — hence at most 1536 bytes — so a longer UDP reply
is silently truncated rather than dropped or reported. -/
theorem listen_receive_truncates (assocId : ℕ) (datagram : List ℕ)
    (srcAddr : UdpServer.RelayAddress) :
    UdpServer.listenReceiveStep assocId datagram srcAddr =
      (assocId, datagram.take 1536, srcAddr) ∧
    (UdpServer.listenReceiveStep assocId datagram srcAddr).2.1.length ≤
      1536 := by
  have h : UdpServer.listenReceiveStep assocId datagram srcAddr =
      (assocId, datagram.take 1536, srcAddr) := by
    simp only [UdpServer.listenReceiveStep, UdpServer.recvFromBuf,
      List.length_replicate]
    rw [List.take_left']
    simp [List.length_take, Nat.min_comm]
  refine ⟨h, ?_⟩
  rw [h]
  simp [List.length_take]

/-- `splitColon` never returns the empty list. -/
theorem splitColon_ne_nil (s : List Char) : TuicClient.splitColon s ≠ [] := by
  cases s with
  | nil => simp [TuicClient.splitColon]
  | cons c rest =>
    simp only [TuicClient.splitColon]
    split_ifs
    · simp
    · cases TuicClient.splitColon rest <;> simp

/-- Structure of `splitColon`: the first item is the run before the first
`':'`, and the remaining items split the remainder after it. -/
theorem splitColon_structure (s : List Char) :
    TuicClient.splitColon s =
      s.takeWhile TuicClient.notColon ::
        (match s.dropWhile TuicClient.notColon with
          | [] => ([] : List (List Char))
          | _ :: b => TuicClient.splitColon b) := by
  induction s with
  | nil => rfl
  | cons c rest ih =>
    by_cases hc : c = ':'
    · subst hc
      simp [TuicClient.splitColon, List.takeWhile_cons, List.dropWhile_cons,
        TuicClient.notColon]
    · simp only [TuicClient.splitColon, if_neg hc]
      rw [ih]
      simp [List.takeWhile_cons, List.dropWhile_cons, TuicClient.notColon, hc]

/-- The first element remaining after `dropWhile notColon` is `':'`. -/
theorem dropWhile_colon_head (s : List Char) (d : Char) (b : List Char)
    (h : s.dropWhile TuicClient.notColon = d :: b) : d = ':' := by
  induction s with
  | nil => simp at h
  | cons c rest ih =>
    by_cases hc : c = ':'
    · subst hc
      simp [List.dropWhile_cons, TuicClient.notColon] at h
      exact h.1.symm
    · simp [List.dropWhile_cons, TuicClient.notColon, hc] at h
      exact ih h

/-- C10: `deserialize_server` accepts exactly the strings with a single
`':'` whose part after the colon parses as a `u16`, returning the part
before the colon together with the port, and rejects everything else —
it agrees everywhere with the predicate stated by the claim. -/
theorem deserialize_server_exact (s : List Char) :
    TuicClient.deserializeServer s = TuicClient.deserializeServerSpec s := by
  have hsplit := splitColon_structure s
  have happ := List.takeWhile_append_dropWhile
    (p := TuicClient.notColon) (l := s)
  cases hd : s.dropWhile TuicClient.notColon with
  | nil =>
    rw [hd] at hsplit happ
    have hnc : ':' ∉ s := by
      intro hmem
      rw [List.append_nil] at happ
      rw [← happ] at hmem
      have := List.mem_takeWhile_imp hmem
      simp [TuicClient.notColon] at this
    have hcount : s.count ':' = 0 := by
      simpa using List.count_eq_zero.mpr hnc
    simp [TuicClient.deserializeServer, TuicClient.deserializeServerSpec,
      hsplit, hcount, hd]
  | cons d b =>
    have hdc : d = ':' := dropWhile_colon_head s d b hd
    subst hdc
    rw [hd] at hsplit happ
    have hna : ':' ∉ s.takeWhile TuicClient.notColon := by
      intro hmem
      have := List.mem_takeWhile_imp hmem
      simp [TuicClient.notColon] at this
    have hcount : s.count ':' = b.count ':' + 1 := by
      conv_lhs => rw [← happ]
      simp [List.count_append, List.count_cons,
        List.count_eq_zero.mpr hna]
    have hsplitb := splitColon_structure b
    cases hdb : b.dropWhile TuicClient.notColon with
    | nil =>
      -- no second colon: exactly one colon in `s`
      rw [hdb] at hsplitb
      have happb := List.takeWhile_append_dropWhile
        (p := TuicClient.notColon) (l := b)
      rw [hdb, List.append_nil] at happb
      have hncb : ':' ∉ b := by
        intro hmem
        rw [← happb] at hmem
        have := List.mem_takeWhile_imp hmem
        simp [TuicClient.notColon] at this
      have hcountb : b.count ':' = 0 := by
        simpa using List.count_eq_zero.mpr hncb
      simp [TuicClient.deserializeServer, TuicClient.deserializeServerSpec,
        hsplit, hsplitb, happb, hcount, hcountb, hd]
    | cons d2 b2 =>
      -- a second colon exists: at least three split items, count ≥ 2
      rw [hdb] at hsplitb
      have hcountb : b.count ':' ≠ 0 := by
        intro h0
        have hncb := List.count_eq_zero.mp (by simpa using h0)
        have hnil : b.dropWhile TuicClient.notColon = [] := by
          rw [List.dropWhile_eq_nil_iff]
          intro x hx
          simp only [TuicClient.notColon, decide_eq_true_eq]
          intro hxe
          exact hncb (hxe ▸ hx)
        rw [hdb] at hnil
        simp at hnil
      rcases hne : TuicClient.splitColon b2 with _ | ⟨p2, t2⟩
      · exact absurd hne (splitColon_ne_nil b2)
      · simp [TuicClient.deserializeServer, TuicClient.deserializeServerSpec,
          hsplit, hsplitb, hne, hcount, hcountb]

end Tuic
